import Mathlib

/-!
Verification development for the SignFlow gesture-recognition core.

The definitions below are a shallow embedding of the recognition pipeline:

* the temporal confirmation tracker of `useHandDetection`
  (client hook, confidence-history map, cleanup sweep);
* the MS-ASL gesture recognizer of `gestureRecognition.ts`
  (`distance`, `angleBetweenThreePoints`, `extractFeatures`,
  `detectExtendedFingers`, `calculateFingerCurls`, `calculatePalmNormal`,
  `getFingerprintMatches`, `recognizeGesture`).

JavaScript numbers are modelled as rationals where the source only performs
field arithmetic and comparisons (confidences, thresholds, timestamps) and as
real numbers where the source calls `Math.sqrt` / `Math.acos` (geometry).
A JavaScript exception caused by indexing past the end of the landmark array
is modelled by `Option`: an out-of-range access yields `none`, which
propagates to the caller exactly like the caught exception that makes
`recognizeGesture` return `null`.
-/

namespace SignFlow

/-! ## Temporal confirmation tracker (useHandDetection hook)

State held by the hook: `confidenceHistoryRef` (a map from gesture name to
`{count, confidences, lastTimestamp}`), `lastDetectedGestureRef` and
`detectionCountRef`.  One call of the detection loop body with a qualifying
recognition result is one `Frame.recognition`; a frame with no detected hand
is `Frame.noHand`. -/

/-- One entry of the confidence-history map: consecutive qualifying match
count, rolling list of confidences, and last-seen timestamp (ms). -/
structure HistoryEntry where
  count : Nat
  confidences : List ℚ
  lastTimestamp : ℤ
  deriving DecidableEq

/-- The mutable refs of the hook that the per-frame logic reads and writes. -/
structure TrackerState where
  histories : List (String × HistoryEntry)
  lastDetected : Option String
  detectionCount : Nat
  deriving DecidableEq

/-- The event delivered to `onGestureDetected`. -/
structure DetectedGesture where
  gesture : String
  confidence : ℚ
  timestamp : ℤ
  deriving DecidableEq

/-- Input to one iteration of the detection loop: either a recognition result
for a frame with a hand (name, confidence, `Date.now()`), or a frame in which
no hand was detected. -/
inductive Frame where
  | recognition (name : String) (confidence : ℚ) (time : ℤ)
  | noHand
  deriving DecidableEq

/-- Number of high-confidence matches needed for a confirmation. -/
def REQUIRED_MATCHES : Nat := 4

/-- `Map.set`: replace the value under an existing key, otherwise append. -/
def setEntry (l : List (String × HistoryEntry)) (k : String) (v : HistoryEntry) :
    List (String × HistoryEntry) :=
  if l.any (fun p => p.1 == k) then
    l.map (fun p => if p.1 == k then (k, v) else p)
  else l ++ [(k, v)]

/-- `Array.prototype.slice(-n)`: the last `n` elements. -/
def lastN (n : Nat) (l : List ℚ) : List ℚ := l.drop (l.length - n)

/-- One iteration of the MS-ASL detection-loop body, covering the
high-confidence branch (`recognitionResult.confidence > 0.8`) and the
no-hand reset of `lastDetectedGestureRef` / `detectionCountRef`.
Returns the updated refs and the event passed to `onGestureDetected`,
if any. -/
def trackStep (s : TrackerState) (f : Frame) : TrackerState × Option DetectedGesture :=
  match f with
  | .noHand => (⟨s.histories, none, 0⟩, none)
  | .recognition name conf now =>
    if 8/10 < conf then
      let h0 := (s.histories.lookup name).getD ⟨0, [], now⟩
      let h1 := if 3000 < now - h0.lastTimestamp then
          (⟨0, [], h0.lastTimestamp⟩ : HistoryEntry) else h0
      let h2 : HistoryEntry := ⟨h1.count + 1, h1.confidences ++ [conf], now⟩
      let hist := setEntry s.histories name h2
      if REQUIRED_MATCHES ≤ h2.count then
        let avg := h2.confidences.sum / (h2.confidences.length : ℚ)
        if s.lastDetected ≠ some name ∨ 3 < s.detectionCount then
          (⟨setEntry hist name ⟨REQUIRED_MATCHES - 1, lastN 3 h2.confidences, now⟩,
              some name, 0⟩,
            some ⟨name, avg, now⟩)
        else
          (⟨hist, s.lastDetected, s.detectionCount + 1⟩, none)
      else (⟨hist, s.lastDetected, s.detectionCount⟩, none)
    else (s, none)

/-- Initial hook state: empty history map, no last detection. -/
def initState : TrackerState := ⟨[], none, 0⟩

/-- Run the detection-loop body over a list of frames, collecting the
emitted events in order. -/
def runSteps : TrackerState → List Frame → TrackerState × List DetectedGesture
  | s, [] => (s, [])
  | s, f :: fs =>
    let r := trackStep s f
    let rest := runSteps r.1 fs
    (rest.1, r.2.toList ++ rest.2)

/-- Run the tracker from the initial (empty) state. -/
def runTracker (fs : List Frame) : TrackerState × List DetectedGesture :=
  runSteps initState fs

/-- The periodic cleanup sweep: delete every history entry whose last-seen
timestamp is more than 8000 ms old, keep the rest untouched. -/
def cleanupSweep (now : ℤ) (l : List (String × HistoryEntry)) :
    List (String × HistoryEntry) :=
  l.filter (fun p => !(decide (8000 < now - p.2.lastTimestamp)))

/-! ## Gesture data model (client types, `types/index.ts`) -/

/-- Gesture type: `"alphabet" | "phrase" | "word"`. -/
inductive GestureType where
  | alphabet
  | phrase
  | word
  deriving DecidableEq

/-- A gesture definition as supplied by the dictionary.  Optional numeric
fields are JavaScript numbers (modelled as rationals); a missing field is
`none`.  `hasMotion` is a boolean flag whose absence is falsy. -/
structure Gesture where
  name : String
  type : GestureType
  fingerPattern : Option (List Bool)
  hasMotion : Bool
  complexity : Option ℚ
  msaslClass : Option ℚ
  deriving DecidableEq

/-- The result returned by `recognizeGesture`. -/
structure RecognitionResult where
  gesture : Gesture
  confidence : ℚ
  deriving DecidableEq

/-! ## Pattern library (MS-ASL `getFingerprintMatches` table) -/

/-- Read a finger flag as the truthiness of `fingers[i]` (missing index is
falsy, as in JavaScript). -/
def fget (fingers : List Bool) (i : Nat) : Bool := fingers.getD i false

/-- A pattern-table entry: expected finger pattern plus the optional
additional verification function. -/
structure PatternInfo where
  fingerPattern : List Bool
  verifyFn : Option (List Bool → Bool)

/-- The hard-coded MS-ASL pattern table (`patterns` object literal), as a
lookup from gesture name. -/
def patternTable (name : String) : Option PatternInfo :=
  if name = "A" then some ⟨[true, false, false, false, false],
    some (fun f => fget f 0 && !((f.drop 1).any id))⟩
  else if name = "B" then some ⟨[false, true, true, true, true],
    some (fun f => !(fget f 0) && (f.drop 1).all id)⟩
  else if name = "C" then some ⟨[false, false, false, false, false], none⟩
  else if name = "D" then some ⟨[true, true, false, false, false],
    some (fun f => fget f 0 && fget f 1 && !(fget f 2) && !(fget f 3) && !(fget f 4))⟩
  else if name = "E" then some ⟨[false, false, false, false, false], none⟩
  else if name = "F" then some ⟨[true, true, false, false, false], none⟩
  else if name = "G" then some ⟨[true, true, false, false, false],
    some (fun f => fget f 0 && fget f 1 && !(fget f 2) && !(fget f 3) && !(fget f 4))⟩
  else if name = "H" then some ⟨[true, true, true, false, false],
    some (fun f => fget f 0 && fget f 1 && fget f 2 && !(fget f 3) && !(fget f 4))⟩
  else if name = "I" then some ⟨[false, false, false, false, true],
    some (fun f => !(fget f 0) && !(fget f 1) && !(fget f 2) && !(fget f 3) && fget f 4)⟩
  else if name = "J" then some ⟨[false, false, false, false, true], none⟩
  else if name = "K" then some ⟨[true, true, true, false, false], none⟩
  else if name = "L" then some ⟨[true, true, false, false, false],
    some (fun f => fget f 0 && fget f 1 && !(fget f 2) && !(fget f 3) && !(fget f 4))⟩
  else if name = "M" then some ⟨[false, false, false, false, false], none⟩
  else if name = "N" then some ⟨[false, false, false, false, false], none⟩
  else if name = "O" then some ⟨[false, false, false, false, false], none⟩
  else if name = "P" then some ⟨[true, true, false, false, false], none⟩
  else if name = "Q" then some ⟨[true, true, false, false, false], none⟩
  else if name = "R" then some ⟨[true, true, true, false, false], none⟩
  else if name = "S" then some ⟨[false, false, false, false, false], none⟩
  else if name = "T" then some ⟨[false, false, false, false, false], none⟩
  else if name = "U" then some ⟨[true, true, true, false, false],
    some (fun f => fget f 0 && fget f 1 && fget f 2 && !(fget f 3) && !(fget f 4))⟩
  else if name = "V" then some ⟨[true, true, true, false, false],
    some (fun f => fget f 0 && fget f 1 && fget f 2 && !(fget f 3) && !(fget f 4))⟩
  else if name = "W" then some ⟨[true, true, true, true, false],
    some (fun f => fget f 0 && fget f 1 && fget f 2 && fget f 3 && !(fget f 4))⟩
  else if name = "X" then some ⟨[true, false, false, false, false], none⟩
  else if name = "Y" then some ⟨[true, false, false, false, true],
    some (fun f => fget f 0 && !(fget f 1) && !(fget f 2) && !(fget f 3) && fget f 4)⟩
  else if name = "Z" then some ⟨[true, true, false, false, false], none⟩
  else if name = "Hello" then some ⟨[true, true, true, true, true],
    some (fun f => f.all id)⟩
  else if name = "Thank You" then some ⟨[true, false, false, false, false], none⟩
  else if name = "Please" then some ⟨[true, false, false, false, false], none⟩
  else if name = "Sorry" then some ⟨[false, false, false, false, false], none⟩
  else if name = "Help" then some ⟨[true, true, false, false, false], none⟩
  else if name = "Yes" then some ⟨[true, false, false, false, false], none⟩
  else if name = "No" then some ⟨[true, true, true, false, false], none⟩
  else if name = "Good" then some ⟨[true, false, false, false, false], none⟩
  else if name = "Bad" then some ⟨[true, false, false, false, false], none⟩
  else if name = "Love" then some ⟨[true, false, false, false, false], none⟩
  else none

/-- The pattern used for a gesture after the fallback loop: gestures missing
from the table get `gesture.fingerPattern || [true,true,true,true,true]`
and no verification function. -/
def patternFor (g : Gesture) : PatternInfo :=
  match patternTable g.name with
  | some p => p
  | none => ⟨g.fingerPattern.getD [true, true, true, true, true], none⟩

/-! ## Pattern matcher (MS-ASL `getFingerprintMatches`) -/

/-- MS-ASL per-finger weights `[thumb, index, middle, ring, pinky]`. -/
def weightsList : List ℚ := [1, 13/10, 1, 8/10, 9/10]

/-- `weights.reduce((sum, w) => sum + w, 0)`. -/
def totalWeight : ℚ := weightsList.sum

/-- Contribution of one finger to the weighted score: full weight for an
exact match, `-1.2·w` when the pattern expects an extended finger that is
not extended, `-0.8·w` for the other mismatches.  `pb` is the pattern bit
(`none` when the pattern array is shorter than 5, in which case the
comparison with the boolean finger flag fails). -/
def fingerTermScore (pb : Option Bool) (fb : Bool) (w : ℚ) : ℚ :=
  if pb = some fb then w
  else if pb = some true ∧ fb = false then -(w * (12/10))
  else -(w * (8/10))

/-- The weighted matching score: the loop `for (let i = 0; i < 5; i++)`. -/
def weightedScore (pattern fingers : List Bool) : ℚ :=
  ((List.range 5).map
    (fun i => fingerTermScore pattern[i]? (fget fingers i) (weightsList.getD i 0))).sum

/-- Confidence from the raw weighted score: clamp non-positive scores to
`0.1`, otherwise `min 1 (score / totalWeight)`. -/
def rawConfidence (ws : ℚ) : ℚ :=
  if ws ≤ 0 then 1/10 else min 1 (ws / totalWeight)

/-- Phrase adjustment: phrases lose 10% confidence. -/
def typeAdjust (g : Gesture) (c : ℚ) : ℚ :=
  if g.type = GestureType.phrase then c * (9/10) else c

/-- Motion adjustment: signs that require motion lose 15% confidence. -/
def motionAdjust (g : Gesture) (c : ℚ) : ℚ :=
  if g.hasMotion then c * (85/100) else c

/-- The scoring path of the map callback once verification has passed (or
was absent): weighted score, clamping, then the two adjustments. -/
def scoreConfidence (g : Gesture) (pattern fingers : List Bool) : ℚ :=
  motionAdjust g (typeAdjust g (rawConfidence (weightedScore pattern fingers)))

/-- Confidence assigned to one gesture by the map callback, including the
verification short-circuit that returns `0.1`. -/
def gestureConfidence (g : Gesture) (pinfo : PatternInfo) (fingers : List Bool) : ℚ :=
  match pinfo.verifyFn with
  | some vf => if vf fingers then scoreConfidence g pinfo.fingerPattern fingers else 1/10
  | none => scoreConfidence g pinfo.fingerPattern fingers

/-- The adaptive confidence floor of the filter step: `0.85` for alphabet
signs, `0.80` for phrases, `0.8` otherwise, lowered by `complexity / 100`
when a complexity is available. -/
def minConfidence (g : Gesture) : ℚ :=
  (match g.type with
    | GestureType.alphabet => 85/100
    | GestureType.phrase => 80/100
    | GestureType.word => 8/10) -
  (match g.complexity with
    | some c => c / 100
    | none => 0)

/-- Insert one scored candidate into a list sorted by descending confidence
(stable, like `Array.prototype.sort` with comparator
`(a, b) => b.confidence - a.confidence`). -/
def insertByConf (x : Gesture × ℚ) : List (Gesture × ℚ) → List (Gesture × ℚ)
  | [] => [x]
  | y :: ys => if y.2 < x.2 then x :: y :: ys else y :: insertByConf x ys

/-- Sort scored candidates by descending confidence. -/
def sortByConfDesc (l : List (Gesture × ℚ)) : List (Gesture × ℚ) :=
  l.foldr insertByConf []

/-- The MS-ASL `getFingerprintMatches`: score every candidate against its
pattern (with fallback), drop the ones at or below their adaptive floor,
and rank the rest by descending confidence. -/
def getFingerprintMatches (fingers : List Bool) (gs : List Gesture) :
    List (Gesture × ℚ) :=
  sortByConfDesc
    ((gs.map (fun g => (g, gestureConfidence g (patternFor g) fingers))).filter
      (fun r => minConfidence r.1 < r.2))



/-! ## Geometry utilities (real arithmetic)

JavaScript landmark points are `[x, y, z]` arrays of numbers, modelled as a
point structure over `ℝ`.  `Math.sqrt`, `Math.acos` and `Math.PI` become
`Real.sqrt`, `Real.arccos` and `Real.pi`. -/

/-- A 3-D landmark point. -/
structure Pt where
  x : ℝ
  y : ℝ
  z : ℝ

/-- Euclidean distance between two 3-D points. -/
noncomputable def distance (a b : Pt) : ℝ :=
  Real.sqrt ((a.x - b.x) ^ 2 + (a.y - b.y) ^ 2 + (a.z - b.z) ^ 2)

/-- The source's three-point angle: the arccosine (in degrees) of the dot
product of the vectors `b - a` and `c - b` over the product of their
magnitudes. -/
noncomputable def angleBetweenThreePoints (a b c : Pt) : ℝ :=
  let abv : Pt := ⟨b.x - a.x, b.y - a.y, b.z - a.z⟩
  let bcv : Pt := ⟨c.x - b.x, c.y - b.y, c.z - b.z⟩
  let dotProduct := abv.x * bcv.x + abv.y * bcv.y + abv.z * bcv.z
  let abMag := Real.sqrt (abv.x * abv.x + abv.y * abv.y + abv.z * abv.z)
  let bcMag := Real.sqrt (bcv.x * bcv.x + bcv.y * bcv.y + bcv.z * bcv.z)
  Real.arccos (dotProduct / (abMag * bcMag)) * (180 / Real.pi)

/-- `Math.atan2` (used only for the logged hand orientation). -/
noncomputable def atan2 (y x : ℝ) : ℝ :=
  if 0 < x then Real.arctan (y / x)
  else if x < 0 then
    (if 0 ≤ y then Real.arctan (y / x) + Real.pi else Real.arctan (y / x) - Real.pi)
  else if 0 < y then Real.pi / 2
  else if y < 0 then -(Real.pi / 2)
  else 0

/-- Feature extraction from hand landmarks.  The computed features are unused
by the recognizer, but in the source an access past the end of the landmark
array makes `distance` throw inside this function, which the caller turns
into a `null` result; the `Option` binds model exactly those accesses. -/
noncomputable def extractFeatures (lm : List Pt) : Option (List ℝ) := do
  let wrist ← lm[0]?
  let thumbTip ← lm[4]?
  let indexTip ← lm[8]?
  let middleTip ← lm[12]?
  let ringTip ← lm[16]?
  let pinkyTip ← lm[20]?
  let dists : List ℝ := [distance wrist thumbTip, distance wrist indexTip,
    distance wrist middleTip, distance wrist ringTip, distance wrist pinkyTip]
  let angles : List ℝ := [angleBetweenThreePoints wrist thumbTip indexTip,
    angleBetweenThreePoints wrist indexTip middleTip,
    angleBetweenThreePoints wrist middleTip ringTip,
    angleBetweenThreePoints wrist ringTip pinkyTip]
  let rel : List ℝ := (lm.drop 1).flatMap
    (fun p => [(p.x - wrist.x) / 100, (p.y - wrist.y) / 100, (p.z - wrist.z) / 100])
  pure (dists ++ angles ++ rel)

/-- Extension test for a non-thumb finger in the MS-ASL detector: the
distance-proportion test OR the joint-angle straightness test, with the
per-finger thresholds passed in. -/
noncomputable def fingerFlag (palm tip mid base : Pt) (extTh angTh : ℝ) : Bool :=
  decide (extTh < distance tip palm / distance base palm ∨
    angTh < angleBetweenThreePoints base mid tip)

/-- The MS-ASL `detectExtendedFingers`: thumb by distance to the pinky base,
the other four fingers by `fingerFlag` with the MS-ASL thresholds
(index 1.4/140, middle 1.5/145, ring 1.7/150, pinky 1.5/130). -/
noncomputable def detectExtendedFingers (lm : List Pt) : Option (List Bool) := do
  let wrist ← lm[0]?
  let palm := wrist
  let tipThumb ← lm[4]?
  let tipIndex ← lm[8]?
  let tipMiddle ← lm[12]?
  let tipRing ← lm[16]?
  let tipPinky ← lm[20]?
  let midIndex ← lm[6]?
  let midMiddle ← lm[10]?
  let midRing ← lm[14]?
  let midPinky ← lm[18]?
  let baseThumb ← lm[1]?
  let baseIndex ← lm[5]?
  let baseMiddle ← lm[9]?
  let baseRing ← lm[13]?
  let basePinky ← lm[17]?
  let thumbExtended : Bool :=
    decide (distance baseThumb wrist * (6/10) < distance tipThumb basePinky)
  pure [thumbExtended,
    fingerFlag palm tipIndex midIndex baseIndex (14/10) 140,
    fingerFlag palm tipMiddle midMiddle baseMiddle (15/10) 145,
    fingerFlag palm tipRing midRing baseRing (17/10) 150,
    fingerFlag palm tipPinky midPinky basePinky (15/10) 130]

/-- Finger-curl value for one finger: `1 - angle/180`. -/
noncomputable def curlOf (base mid tip : Pt) : ℝ :=
  1 - angleBetweenThreePoints base mid tip / 180

/-- The MS-ASL `calculateFingerCurls`: curls of the four fingers from the
angle at the middle joint, with the thumb curl prepended. -/
noncomputable def calculateFingerCurls (lm : List Pt) : Option (List ℝ) := do
  let baseIndexF ← lm[5]?
  let midIndexF ← lm[6]?
  let tipIndexF ← lm[8]?
  let baseMiddleF ← lm[9]?
  let midMiddleF ← lm[10]?
  let tipMiddleF ← lm[12]?
  let baseRingF ← lm[13]?
  let midRingF ← lm[14]?
  let tipRingF ← lm[16]?
  let basePinkyF ← lm[17]?
  let midPinkyF ← lm[18]?
  let tipPinkyF ← lm[20]?
  let thumbBase ← lm[1]?
  let thumbMid ← lm[2]?
  let thumbTip ← lm[4]?
  pure [curlOf thumbBase thumbMid thumbTip,
    curlOf baseIndexF midIndexF tipIndexF,
    curlOf baseMiddleF midMiddleF tipMiddleF,
    curlOf baseRingF midRingF tipRingF,
    curlOf basePinkyF midPinkyF tipPinkyF]

/-- The MS-ASL `calculatePalmNormal`: normalized cross product of the two
palm-plane vectors from the wrist to the index and pinky MCP joints. -/
noncomputable def calculatePalmNormal (lm : List Pt) : Option Pt := do
  let wrist ← lm[0]?
  let indexMCP ← lm[5]?
  let pinkyMCP ← lm[17]?
  let v1 : Pt := ⟨indexMCP.x - wrist.x, indexMCP.y - wrist.y, indexMCP.z - wrist.z⟩
  let v2 : Pt := ⟨pinkyMCP.x - wrist.x, pinkyMCP.y - wrist.y, pinkyMCP.z - wrist.z⟩
  let normal : Pt := ⟨v1.y * v2.z - v1.z * v2.y, v1.z * v2.x - v1.x * v2.z,
    v1.x * v2.y - v1.y * v2.x⟩
  let magnitude := Real.sqrt (normal.x ^ 2 + normal.y ^ 2 + normal.z ^ 2)
  pure ⟨normal.x / magnitude, normal.y / magnitude, normal.z / magnitude⟩

/-! ## MS-ASL `recognizeGesture`

The function body is split into one definition per source block: the four
special cases, the MS-ASL class adjustment, and the per-type confidence
threshold.  A pair `(matchedGesture, confidence)` threads through the
special cases exactly as the two mutable locals do in the source. -/

/-- Special case 1 (`'A'` vs `'S'`): promote a closed fist with extended
thumb to `'A'` when the thumb is far enough from the index base. -/
noncomputable def applyCase1 (lm : List Pt) (gs : List Gesture) (fingers : List Bool)
    (thumbToIndexBase : ℝ) (indexMCP : Pt) (mc : Gesture × ℚ) : Option (Gesture × ℚ) :=
  if (mc.1.name = "A" ∨ mc.1.name = "S") ∧ fget fingers 0 = true ∧
      (fingers.drop 1).any id = false then do
    let p1 ← lm[1]?
    if distance p1 indexMCP * (85/100) < thumbToIndexBase then
      pure ((gs.find? (fun g => g.name == "A")).getD mc.1, max mc.2 (85/100))
    else pure mc
  else pure mc

/-- Special case 2 (`'U'` vs `'V'`): measure the index-to-middle fingertip
spread and fix the match and its confidence accordingly. -/
noncomputable def applyCase2 (lm : List Pt) (gs : List Gesture) (fingers : List Bool)
    (handHeight : ℝ) (mc : Gesture × ℚ) : Option (Gesture × ℚ) :=
  if (mc.1.name = "U" ∨ mc.1.name = "V") ∧ fget fingers 1 = true ∧ fget fingers 2 = true ∧
      fget fingers 3 = false ∧ fget fingers 4 = false then do
    let indexTip ← lm[8]?
    let middleTip ← lm[12]?
    if (35/100 : ℝ) < distance indexTip middleTip / handHeight then
      pure ((gs.find? (fun g => g.name == "V")).getD mc.1, 9/10)
    else
      pure ((gs.find? (fun g => g.name == "U")).getD mc.1, 9/10)
  else pure mc

/-- Special case 3 (`'Hello'`): confirm with the palm normal facing the
camera, otherwise halve the confidence. -/
noncomputable def applyCase3 (lm : List Pt) (fingers : List Bool) (mc : Gesture × ℚ) :
    Option (Gesture × ℚ) :=
  if mc.1.name = "Hello" ∧ fingers.all id = true then do
    let palmNormal ← calculatePalmNormal lm
    if (7/10 : ℝ) < |palmNormal.z| then pure (mc.1, 95/100)
    else pure (mc.1, mc.2 * (1/2))
  else pure mc

/-- `parseInt` restricted to the numeral names the source guards with
`['1','2','3','4','5'].includes(...)`. -/
def numeralValue (s : String) : Nat :=
  if s = "1" then 1 else if s = "2" then 2 else if s = "3" then 3
  else if s = "4" then 4 else if s = "5" then 5 else 0

/-- Special case 4 (number signs `'1'`–`'5'`): boost the confidence when the
count of extended fingers equals the numeral, cut it to 30% otherwise. -/
def applyCase4 (fingers : List Bool) (mc : Gesture × ℚ) : Gesture × ℚ :=
  if mc.1.name ∈ (["1", "2", "3", "4", "5"] : List String) then
    if (fingers.filter id).length = numeralValue mc.1.name then
      (mc.1, max mc.2 (9/10))
    else (mc.1, mc.2 * (3/10))
  else mc

/-- MS-ASL class adjustment: multiply the confidence by
`1 - msaslClass / 100` when the class is available. -/
def msaslAdjust (g : Gesture) (c : ℚ) : ℚ :=
  match g.msaslClass with
  | some mc => c * (1 - mc / 100)
  | none => c

/-- The per-type confidence threshold applied to the final match: `0.88` for
alphabet signs, `0.85` for phrases, the `0.95` default otherwise, lowered by
`complexity * 0.01` when a complexity is available. -/
def confThreshold (g : Gesture) : ℚ :=
  (match g.type with
    | GestureType.alphabet => 88/100
    | GestureType.phrase => 85/100
    | GestureType.word => 95/100) -
  (match g.complexity with
    | some c => c * (1/100)
    | none => 0)

/-- The tail of `recognizeGesture` once a top-ranked match exists: the four
special cases in order, the MS-ASL class adjustment, and the final
threshold test. -/
noncomputable def applyCases (lm : List Pt) (gs : List Gesture) (fingers : List Bool)
    (tib hh : ℝ) (imcp : Pt) (top : Gesture × ℚ) : Option (Option RecognitionResult) := do
  let mc1 ← applyCase1 lm gs fingers tib imcp top
  let mc2 ← applyCase2 lm gs fingers hh mc1
  let mc3 ← applyCase3 lm fingers mc2
  let mc4 := applyCase4 fingers mc3
  let confidence := msaslAdjust mc4.1 mc4.2
  pure (if confThreshold mc4.1 < confidence then some ⟨mc4.1, confidence⟩ else none)

/-- The `if (gestureMatches.length === 0) return null` early exit followed
by the special-case tail on `gestureMatches[0]`. -/
noncomputable def matchPhase (lm : List Pt) (gs : List Gesture) (fingers : List Bool)
    (tib hh : ℝ) (imcp : Pt) : Option (Option RecognitionResult) :=
  match getFingerprintMatches fingers gs with
  | [] => pure none
  | top :: _ => applyCases lm gs fingers tib hh imcp top

/-- The body of the MS-ASL `recognizeGesture` inside its `try` block.  The
outer `Option` is the exception channel (an out-of-range landmark access);
the inner `Option` is the function's `RecognitionResult | null` result. -/
noncomputable def recognizeCore (lm : List Pt) (gs : List Gesture) :
    Option (Option RecognitionResult) := do
  let _features ← extractFeatures lm
  let wrist ← lm[0]?
  let middleMCP ← lm[9]?
  let _handOrientation := atan2 (middleMCP.y - wrist.y) (middleMCP.x - wrist.x) * 180 / Real.pi
  let fingersExtended ← detectExtendedFingers lm
  let maxX ← (lm.map Pt.x).max?
  let minX ← (lm.map Pt.x).min?
  let maxY ← (lm.map Pt.y).max?
  let minY ← (lm.map Pt.y).min?
  let handWidth := maxX - minX
  let handHeight := maxY - minY
  let _handCompactness := handWidth / handHeight
  let thumbTip ← lm[4]?
  let indexMCP ← lm[5]?
  let thumbToIndexBase := distance thumbTip indexMCP
  let _fingerCurls ← calculateFingerCurls lm
  matchPhase lm gs fingersExtended thumbToIndexBase handHeight indexMCP

/-- The MS-ASL `recognizeGesture`: empty input returns `null` immediately;
a thrown exception (outer `none`) is caught and also yields `null`. -/
noncomputable def recognizeGesture (lm : List Pt) (gs : List Gesture) :
    Option RecognitionResult :=
  if lm.length = 0 then none
  else (recognizeCore lm gs).join

/-! ## Shared fixtures for witnesses and counterexamples -/

/-- Modelled from the spec: the angle in degrees at vertex `b` formed by the
rays `b → a` and `b → c`, i.e. the dot-product/arccosine formula applied to
the vectors `a - b` and `c - b`.  Stated only to compare the intended
semantics with the source's `angleBetweenThreePoints`, which uses `b - a`
and `c - b`. -/
noncomputable def specAngleAtVertex (a b c : Pt) : ℝ :=
  let bav : Pt := ⟨a.x - b.x, a.y - b.y, a.z - b.z⟩
  let bcv : Pt := ⟨c.x - b.x, c.y - b.y, c.z - b.z⟩
  let dotProduct := bav.x * bcv.x + bav.y * bcv.y + bav.z * bcv.z
  let baMag := Real.sqrt (bav.x * bav.x + bav.y * bav.y + bav.z * bav.z)
  let bcMag := Real.sqrt (bcv.x * bcv.x + bcv.y * bcv.y + bcv.z * bcv.z)
  Real.arccos (dotProduct / (baMag * bcMag)) * (180 / Real.pi)

/-- All confidences stored in the history map are above the 0.8 floor. -/
def confOK (l : List (String × HistoryEntry)) : Prop :=
  ∀ p ∈ l, ∀ c ∈ p.2.confidences, 8/10 < c

/-- An alphabet gesture present in the pattern table: `'S'` (closed fist). -/
def gestureS : Gesture := ⟨"S", GestureType.alphabet, none, false, none, none⟩

/-- A dictionary gesture absent from the pattern table that carries its own
pattern `[false, false, false, true, false]` (only the ring finger
extended). -/
def gestureArch : Gesture :=
  ⟨"Arch", GestureType.word, some [false, false, false, true, false], false, none, none⟩

/-- A dictionary gesture absent from the pattern table with no
`fingerPattern` field. -/
def gestureMystery : Gesture := ⟨"Mystery", GestureType.word, none, false, none, none⟩

/-- A dictionary gesture absent from the pattern table with an all-closed
pattern, MS-ASL class 100 and complexity 96. -/
def gestureHighClass : Gesture :=
  ⟨"Tricky", GestureType.word, some [false, false, false, false, false], false,
    some 96, some 100⟩

/-- A phrase gesture present in the pattern table: `'Hello'`. -/
def gestureHello : Gesture := ⟨"Hello", GestureType.phrase, none, false, none, none⟩

/-- A numeral gesture, `'3'`. -/
def gestureThree : Gesture := ⟨"3", GestureType.word, none, false, none, none⟩

/-- The origin landmark point. -/
noncomputable def ptZero : Pt := ⟨0, 0, 0⟩

/-- A malformed 3-point landmark frame. -/
noncomputable def shortFrame : List Pt := [ptZero, ptZero, ptZero]

/-- The all-zero 21-point landmark frame. -/
noncomputable def zeroFrame : List Pt := List.replicate 21 ptZero

/-! ## Theorems -/

lemma lookup_eq_none_of_not_mem_keys (l : List (String × HistoryEntry)) (k : String)
    (h : k ∉ l.map Prod.fst) : l.lookup k = none := by
  induction l with
  | nil => rfl
  | cons p t ih =>
    simp only [List.map_cons, List.mem_cons, not_or] at h
    have hk : (k == p.1) = false := beq_eq_false_iff_ne.mpr h.1
    simpa [List.lookup, hk] using ih h.2

/-- C7.  Whenever the periodic cleanup sweep runs, every confidence-history
entry whose last-seen timestamp is more than the 8-second window old is
deleted from the map (its key is no longer present), and every entry inside
the window keeps its exact value. -/
theorem cleanupSweep_expires_stale_and_keeps_fresh (now : ℤ)
    (l : List (String × HistoryEntry)) (k : String) (h : HistoryEntry)
    (hnd : (l.map Prod.fst).Nodup) (hl : l.lookup k = some h) :
    if 8000 < now - h.lastTimestamp then (cleanupSweep now l).lookup k = none
    else (cleanupSweep now l).lookup k = some h := by
  induction l with
  | nil => simp [List.lookup] at hl
  | cons p t ih =>
    simp only [List.map_cons, List.nodup_cons] at hnd
    rcases hbeq : (k == p.1) with _ | _
    · have hne : p.1 ≠ k := fun hkp => by simp [hkp] at hbeq
      have hl' : t.lookup k = some h := by
        simpa [List.lookup, hbeq] using hl
      have := ih hnd.2 hl'
      by_cases hstale : 8000 < now - h.lastTimestamp
      · simp only [if_pos hstale] at this ⊢
        by_cases hkeep : 8000 < now - p.2.lastTimestamp
        · simpa [cleanupSweep, hkeep] using this
        · simpa [cleanupSweep, hkeep, List.lookup, hbeq] using this
      · simp only [if_neg hstale] at this ⊢
        by_cases hkeep : 8000 < now - p.2.lastTimestamp
        · simpa [cleanupSweep, hkeep] using this
        · simpa [cleanupSweep, hkeep, List.lookup, hbeq] using this
    · have hk : k = p.1 := eq_of_beq hbeq
      have hp : p.2 = h := by
        have := hl
        simp [List.lookup, hbeq] at this
        exact this
      by_cases hstale : 8000 < now - h.lastTimestamp
      · simp only [if_pos hstale]
        have hdrop : ¬ (8000 < now - p.2.lastTimestamp) = False := by
          simp [hp, hstale]
        have : (cleanupSweep now (p :: t)).lookup k = (cleanupSweep now t).lookup k := by
          simp [cleanupSweep, hp, hstale]
        rw [this]
        apply lookup_eq_none_of_not_mem_keys
        intro hmem
        have : k ∈ t.map Prod.fst := by
          obtain ⟨q, hq, hqk⟩ := List.mem_map.mp hmem
          exact hqk ▸ List.mem_map_of_mem Prod.fst (List.mem_of_mem_filter hq)
        exact hnd.1 (hk ▸ this)
      · simp only [if_neg hstale]
        simp [cleanupSweep, hp, hstale, List.lookup, hbeq]

/-- Witness for C7 at a concrete map: a 10-second-old entry is deleted, a
1-second-old entry is kept unchanged. -/
theorem cleanupSweep_expires_stale_and_keeps_fresh_witness :
    (cleanupSweep 10000 [("A", ⟨1, [9/10], 0⟩), ("B", ⟨2, [], 9000⟩)]).lookup "A" = none ∧
    (cleanupSweep 10000 [("A", ⟨1, [9/10], 0⟩), ("B", ⟨2, [], 9000⟩)]).lookup "B" =
      some ⟨2, [], 9000⟩ := by
  constructor
  · have := cleanupSweep_expires_stale_and_keeps_fresh 10000
      [("A", ⟨1, [9/10], 0⟩), ("B", ⟨2, [], 9000⟩)] "A" ⟨1, [9/10], 0⟩
      (by simp) (by simp [List.lookup])
    simpa using this
  · have := cleanupSweep_expires_stale_and_keeps_fresh 10000
      [("A", ⟨1, [9/10], 0⟩), ("B", ⟨2, [], 9000⟩)] "B" ⟨2, [], 9000⟩
      (by simp) (by simp [List.lookup])
    simpa using this

lemma mem_of_lookup_eq_some {l : List (String × HistoryEntry)} {k : String}
    {v : HistoryEntry} (h : l.lookup k = some v) : (k, v) ∈ l := by
  induction l with
  | nil => simp [List.lookup] at h
  | cons p t ih =>
    rcases hbeq : (k == p.1) with _ | _
    · simp only [List.lookup, hbeq] at h
      exact List.mem_cons_of_mem p (ih h)
    · simp only [List.lookup, hbeq] at h
      have hk : k = p.1 := eq_of_beq hbeq
      have : p = (k, v) := by
        cases p
        simp_all
      simp [this]

lemma mem_setEntry {l : List (String × HistoryEntry)} {k : String} {v : HistoryEntry}
    {p : String × HistoryEntry} (h : p ∈ setEntry l k v) : p = (k, v) ∨ p ∈ l := by
  unfold setEntry at h
  by_cases hany : l.any (fun q => q.1 == k)
  · simp only [if_pos hany, List.mem_map] at h
    obtain ⟨q, hq, hpq⟩ := h
    by_cases hqk : (q.1 == k) = true
    · left
      simp [hqk] at hpq
      exact hpq.symm
    · right
      simp only [hqk] at hpq
      simp at hpq
      simpa [← hpq] using hq
  · simp only [if_neg hany, List.mem_append, List.mem_singleton] at h
    tauto

lemma sum_gt_of_all_gt (l : List ℚ) (hne : l ≠ []) (h : ∀ c ∈ l, 8/10 < c) :
    (8/10 : ℚ) * l.length < l.sum := by
  induction l with
  | nil => simp at hne
  | cons a t ih =>
    have ha : (8/10 : ℚ) < a := h a (List.mem_cons_self a t)
    rcases t with _ | ⟨b, t'⟩
    · simpa using ha
    · have ht : (8/10 : ℚ) * (b :: t').length < (b :: t').sum :=
        ih (by simp) (fun c hc => h c (List.mem_cons_of_mem a hc))
      simp only [List.sum_cons, List.length_cons] at ht ⊢
      push_cast at ht ⊢
      linarith

lemma avg_gt_of_all_gt (l : List ℚ) (hne : l ≠ []) (h : ∀ c ∈ l, 8/10 < c) :
    (8/10 : ℚ) < l.sum / (l.length : ℚ) := by
  have hlen : 0 < (l.length : ℚ) := by
    exact_mod_cast List.length_pos.mpr hne
  rw [lt_div_iff₀ hlen]
  exact sum_gt_of_all_gt l hne h

lemma trackStep_preserves (s : TrackerState) (f : Frame) (hs : confOK s.histories) :
    confOK (trackStep s f).1.histories ∧
      ∀ e, (trackStep s f).2 = some e → 8/10 < e.confidence := by
  cases f with
  | noHand => exact ⟨hs, by simp [trackStep]⟩
  | recognition name conf now =>
    by_cases hq : (8/10 : ℚ) < conf
    swap
    · rw [show trackStep s (Frame.recognition name conf now) = (s, none) from by
        simp [trackStep, hq]]
      exact ⟨hs, by simp⟩
    have h0ok : ∀ c ∈ ((s.histories.lookup name).getD ⟨0, [], now⟩).confidences,
        (8/10 : ℚ) < c := by
      rcases hlk : s.histories.lookup name with _ | v
      · simp [hlk]
      · simpa [hlk] using hs _ (mem_of_lookup_eq_some hlk)
    set h0 := (s.histories.lookup name).getD ⟨0, [], now⟩ with hh0
    set h1 := if 3000 < now - h0.lastTimestamp then (⟨0, [], h0.lastTimestamp⟩ : HistoryEntry)
      else h0 with hh1
    have h1ok : ∀ c ∈ h1.confidences, (8/10 : ℚ) < c := by
      rw [hh1]
      split
      · simp
      · exact h0ok
    have h2ok : ∀ c ∈ h1.confidences ++ [conf], (8/10 : ℚ) < c := by
      intro c hc
      rcases List.mem_append.mp hc with hc | hc
      · exact h1ok c hc
      · simpa using (List.mem_singleton.mp hc) ▸ hq
    have h2ne : h1.confidences ++ [conf] ≠ [] := by simp
    have histok : confOK (setEntry s.histories name ⟨h1.count + 1, h1.confidences ++ [conf], now⟩) := by
      intro p hp c hc
      rcases mem_setEntry hp with hp | hp
      · exact h2ok c (by simpa [hp] using hc)
      · exact hs p hp c hc
    have trimok : confOK (setEntry
        (setEntry s.histories name ⟨h1.count + 1, h1.confidences ++ [conf], now⟩) name
        ⟨REQUIRED_MATCHES - 1, lastN 3 (h1.confidences ++ [conf]), now⟩) := by
      intro p hp c hc
      rcases mem_setEntry hp with hp | hp
      · refine h2ok c ?_
        have := hc
        rw [hp] at this
        exact List.drop_subset _ _ this
      · exact histok p hp c hc
    have avgok : (8/10 : ℚ) <
        (h1.confidences ++ [conf]).sum / (((h1.confidences ++ [conf]).length : ℕ) : ℚ) :=
      avg_gt_of_all_gt _ h2ne h2ok
    simp only [trackStep, if_pos hq]
    by_cases hcnt : REQUIRED_MATCHES ≤ h1.count + 1
    · by_cases hcool : s.lastDetected ≠ some name ∨ 3 < s.detectionCount
      · simp only [if_pos hcnt, if_pos hcool, ← hh0, ← hh1]
        refine ⟨trimok, ?_⟩
        intro e he
        have he' : e = ⟨name, (h1.confidences ++ [conf]).sum /
            (((h1.confidences ++ [conf]).length : ℕ) : ℚ), now⟩ := by
          simpa using he.symm
        rw [he']
        exact avgok
      · simp only [if_pos hcnt, if_neg hcool, ← hh0, ← hh1]
        exact ⟨histok, by simp⟩
    · simp only [if_neg hcnt, ← hh0, ← hh1]
      exact ⟨histok, by simp⟩

lemma runSteps_inv (fs : List Frame) : ∀ s : TrackerState, confOK s.histories →
    confOK (runSteps s fs).1.histories ∧ ∀ e ∈ (runSteps s fs).2, (8/10 : ℚ) < e.confidence := by
  induction fs with
  | nil =>
    intro s hs
    exact ⟨hs, by simp [runSteps]⟩
  | cons f fs ih =>
    intro s hs
    have hstep := trackStep_preserves s f hs
    have hrest := ih (trackStep s f).1 hstep.1
    refine ⟨by simpa [runSteps] using hrest.1, ?_⟩
    intro e he
    simp only [runSteps, List.mem_append] at he
    rcases he with he | he
    · rcases hev : (trackStep s f).2 with _ | ev
      · simp [hev] at he
      · have : e = ev := by simpa [hev] using he
        exact this ▸ hstep.2 ev hev
    · exact hrest.2 e he

/-- C8.  Invariant of the temporal tracker: running from the empty state,
every confidence stored in any history entry is strictly above the 0.8
floor, and therefore every emitted detection event reports a confidence
strictly above 0.8 (not merely within `[0, 1]`). -/
theorem tracker_confidences_above_floor (fs : List Frame) :
    (∀ p ∈ (runTracker fs).1.histories, ∀ c ∈ p.2.confidences, (8/10 : ℚ) < c) ∧
    (∀ e ∈ (runTracker fs).2, (8/10 : ℚ) < e.confidence) := by
  have := runSteps_inv fs initState (by intro p hp; simp [initState] at hp)
  exact ⟨this.1, this.2⟩

/-- C1.  Feeding `REQUIRED_MATCHES` (4) consecutive qualifying frames for one
gesture name (confidence above 0.8, gaps at most the 3-second reset window)
from the empty state emits exactly one event whose confidence is the mean of
the fed confidences.  With a gap above the reset window between frames 1 and
2, the count and history restart, so the same four frames emit nothing and a
fifth qualifying frame emits the mean of the four post-reset confidences. -/
theorem tracker_required_matches_emits_mean (name : String) (c1 c2 c3 c4 c5 : ℚ)
    (t1 t2 t3 t4 u2 u3 u4 u5 : ℤ)
    (hc1 : 8/10 < c1) (hc2 : 8/10 < c2) (hc3 : 8/10 < c3) (hc4 : 8/10 < c4)
    (hc5 : 8/10 < c5)
    (h12 : t2 - t1 ≤ 3000) (h23 : t3 - t2 ≤ 3000) (h34 : t4 - t3 ≤ 3000)
    (g12 : 3000 < u2 - t1) (g23 : u3 - u2 ≤ 3000) (g34 : u4 - u3 ≤ 3000)
    (g45 : u5 - u4 ≤ 3000) :
    (runTracker [Frame.recognition name c1 t1, Frame.recognition name c2 t2,
        Frame.recognition name c3 t3, Frame.recognition name c4 t4]).2 =
      [⟨name, (c1 + c2 + c3 + c4) / 4, t4⟩] ∧
    (runTracker [Frame.recognition name c1 t1, Frame.recognition name c2 u2,
        Frame.recognition name c3 u3, Frame.recognition name c4 u4]).2 = [] ∧
    (runTracker [Frame.recognition name c1 t1, Frame.recognition name c2 u2,
        Frame.recognition name c3 u3, Frame.recognition name c4 u4,
        Frame.recognition name c5 u5]).2 =
      [⟨name, (c2 + c3 + c4 + c5) / 4, u5⟩] := by
  have n12 : ¬ (3000 < t2 - t1) := not_lt.mpr h12
  have n23 : ¬ (3000 < t3 - t2) := not_lt.mpr h23
  have n34 : ¬ (3000 < t4 - t3) := not_lt.mpr h34
  have m23 : ¬ (3000 < u3 - u2) := not_lt.mpr g23
  have m34 : ¬ (3000 < u4 - u3) := not_lt.mpr g34
  have m45 : ¬ (3000 < u5 - u4) := not_lt.mpr g45
  have e1 : trackStep initState (Frame.recognition name c1 t1) =
      (⟨[(name, ⟨1, [c1], t1⟩)], none, 0⟩, none) := by
    simp [trackStep, initState, setEntry, REQUIRED_MATCHES, hc1, List.lookup]
  have e2 : trackStep ⟨[(name, ⟨1, [c1], t1⟩)], none, 0⟩ (Frame.recognition name c2 t2) =
      (⟨[(name, ⟨2, [c1, c2], t2⟩)], none, 0⟩, none) := by
    simp [trackStep, setEntry, REQUIRED_MATCHES, hc2, List.lookup, n12]
  have e3 : trackStep ⟨[(name, ⟨2, [c1, c2], t2⟩)], none, 0⟩ (Frame.recognition name c3 t3) =
      (⟨[(name, ⟨3, [c1, c2, c3], t3⟩)], none, 0⟩, none) := by
    simp [trackStep, setEntry, REQUIRED_MATCHES, hc3, List.lookup, n23]
  have e4 : trackStep ⟨[(name, ⟨3, [c1, c2, c3], t3⟩)], none, 0⟩
      (Frame.recognition name c4 t4) =
      (⟨[(name, ⟨3, [c2, c3, c4], t4⟩)], some name, 0⟩,
        some ⟨name, (c1 + c2 + c3 + c4) / 4, t4⟩) := by
    simp [trackStep, setEntry, REQUIRED_MATCHES, hc4, List.lookup, n34, lastN]
    ring
  have f2 : trackStep ⟨[(name, ⟨1, [c1], t1⟩)], none, 0⟩ (Frame.recognition name c2 u2) =
      (⟨[(name, ⟨1, [c2], u2⟩)], none, 0⟩, none) := by
    simp [trackStep, setEntry, REQUIRED_MATCHES, hc2, List.lookup, g12]
  have f3 : trackStep ⟨[(name, ⟨1, [c2], u2⟩)], none, 0⟩ (Frame.recognition name c3 u3) =
      (⟨[(name, ⟨2, [c2, c3], u3⟩)], none, 0⟩, none) := by
    simp [trackStep, setEntry, REQUIRED_MATCHES, hc3, List.lookup, m23]
  have f4 : trackStep ⟨[(name, ⟨2, [c2, c3], u3⟩)], none, 0⟩ (Frame.recognition name c4 u4) =
      (⟨[(name, ⟨3, [c2, c3, c4], u4⟩)], none, 0⟩, none) := by
    simp [trackStep, setEntry, REQUIRED_MATCHES, hc4, List.lookup, m34]
  have f5 : trackStep ⟨[(name, ⟨3, [c2, c3, c4], u4⟩)], none, 0⟩
      (Frame.recognition name c5 u5) =
      (⟨[(name, ⟨3, [c3, c4, c5], u5⟩)], some name, 0⟩,
        some ⟨name, (c2 + c3 + c4 + c5) / 4, u5⟩) := by
    simp [trackStep, setEntry, REQUIRED_MATCHES, hc5, List.lookup, m45, lastN]
    ring
  refine ⟨?_, ?_, ?_⟩
  · simp [runTracker, runSteps, e1, e2, e3, e4]
  · simp [runTracker, runSteps, e1, f2, f3, f4]
  · simp [runTracker, runSteps, e1, f2, f3, f4, f5]

/-- Witness for C1 at concrete confidences 0.9 and one-second gaps (reset
branch exercised with a four-second gap). -/
theorem tracker_required_matches_emits_mean_witness :
    (runTracker [Frame.recognition "A" (9/10) 0, Frame.recognition "A" (9/10) 1000,
        Frame.recognition "A" (9/10) 2000, Frame.recognition "A" (9/10) 3000]).2 =
      [⟨"A", (9/10 + 9/10 + 9/10 + 9/10) / 4, 3000⟩] ∧
    (runTracker [Frame.recognition "A" (9/10) 0, Frame.recognition "A" (9/10) 4000,
        Frame.recognition "A" (9/10) 5000, Frame.recognition "A" (9/10) 6000]).2 = [] ∧
    (runTracker [Frame.recognition "A" (9/10) 0, Frame.recognition "A" (9/10) 4000,
        Frame.recognition "A" (9/10) 5000, Frame.recognition "A" (9/10) 6000,
        Frame.recognition "A" (9/10) 7000]).2 =
      [⟨"A", (9/10 + 9/10 + 9/10 + 9/10) / 4, 7000⟩] :=
  tracker_required_matches_emits_mean "A" (9/10) (9/10) (9/10) (9/10) (9/10)
    0 1000 2000 3000 4000 5000 6000 7000
    (by norm_num) (by norm_num) (by norm_num) (by norm_num) (by norm_num)
    (by norm_num) (by norm_num) (by norm_num)
    (by norm_num) (by norm_num) (by norm_num) (by norm_num)

/-- C4.  On three distinct collinear points with `b` strictly between `a`
and `c` (a straight finger), the source's `angleBetweenThreePoints` returns
0 degrees, while the angle at vertex `b` between the rays `b → a` and
`b → c` — the semantics claimed by the spec, by the comment in
`calculateFingerCurls` (angle 180° means a straight finger) and by the
straightness tests `angle > angleThreshold` — is 180 degrees: the source
applies the formula to `b - a` instead of `a - b` and so computes the
supplement of the intended angle. -/
theorem angle_collinear_is_zero_not_180 :
    angleBetweenThreePoints ⟨0, 0, 0⟩ ⟨1, 0, 0⟩ ⟨2, 0, 0⟩ = 0 ∧
    specAngleAtVertex ⟨0, 0, 0⟩ ⟨1, 0, 0⟩ ⟨2, 0, 0⟩ = 180 := by
  constructor
  · simp only [angleBetweenThreePoints]
    norm_num
  · simp only [specAngleAtVertex]
    norm_num
    field_simp

/-- Counterexample to C6.  `gestureArch` has no entry in the hard-coded
pattern table, yet the pattern the matcher uses for it is its own
`fingerPattern` field, not the all-extended `[true,true,true,true,true]`. -/
theorem fallback_not_all_extended_counterexample :
    patternTable gestureArch.name = none ∧
    (patternFor gestureArch).fingerPattern = [false, false, false, true, false] ∧
    (patternFor gestureArch).fingerPattern ≠ [true, true, true, true, true] := by
  refine ⟨rfl, rfl, ?_⟩
  intro h
  rw [show (patternFor gestureArch).fingerPattern = [false, false, false, true, false]
    from rfl] at h
  simp at h

/-- C6, amended.  For every gesture lacking an explicit entry in the
hard-coded pattern table, the matcher uses the gesture's own
`fingerPattern` field when one is supplied, and falls back to the
all-extended pattern `[true,true,true,true,true]` only when the gesture
supplies none; such fallback entries carry no verification function. -/
theorem fallback_pattern_amended (g : Gesture) (h : patternTable g.name = none) :
    (patternFor g).fingerPattern = g.fingerPattern.getD [true, true, true, true, true] ∧
    (patternFor g).verifyFn = none := by
  unfold patternFor
  rw [h]
  exact ⟨rfl, rfl⟩

/-- Witness for amended C6: a pattern-carrying gesture keeps its own
pattern, a pattern-less gesture gets the all-extended fallback. -/
theorem fallback_pattern_amended_witness :
    (patternFor gestureArch).fingerPattern = [false, false, false, true, false] ∧
    (patternFor gestureMystery).fingerPattern = [true, true, true, true, true] := by
  constructor
  · exact ((fallback_pattern_amended gestureArch rfl).1).trans rfl
  · exact ((fallback_pattern_amended gestureMystery rfl).1).trans rfl

lemma exists_five_of_length_eq (l : List Bool) (h : l.length = 5) :
    ∃ a b c d e, l = [a, b, c, d, e] := by
  rcases l with _ | ⟨a, l⟩
  · simp at h
  rcases l with _ | ⟨b, l⟩
  · simp at h
  rcases l with _ | ⟨c, l⟩
  · simp at h
  rcases l with _ | ⟨d, l⟩
  · simp at h
  rcases l with _ | ⟨e, l⟩
  · simp at h
  rcases l with _ | ⟨f, l⟩
  · exact ⟨a, b, c, d, e, rfl⟩
  · simp at h

lemma totalWeight_eq_five : totalWeight = 5 := by
  norm_num [totalWeight, weightsList]

/-- Dropping one expected-extended finger at position `i` costs the match
weight plus the 1.2-fold penalty: the score is `5 - (11/5)·wᵢ`. -/
lemma weightedScore_missing (p : List Bool) (h5 : p.length = 5) (i : Nat) (hi : i < 5)
    (hpi : p.getD i false = true) :
    weightedScore p (p.set i false) = 5 - (11/5) * weightsList.getD i 0 := by
  obtain ⟨a, b, c, d, e, rfl⟩ := exists_five_of_length_eq p h5
  interval_cases i <;>
    simp_all [weightedScore, fingerTermScore, fget, weightsList, List.range_succ] <;>
    norm_num

/-- Adding one unexpected extended finger at position `j` costs the match
weight plus the 0.8-fold penalty: the score is `5 - (9/5)·wⱼ`. -/
lemma weightedScore_extra (p : List Bool) (h5 : p.length = 5) (j : Nat) (hj : j < 5)
    (hpj : p.getD j false = false) :
    weightedScore p (p.set j true) = 5 - (9/5) * weightsList.getD j 0 := by
  obtain ⟨a, b, c, d, e, rfl⟩ := exists_five_of_length_eq p h5
  interval_cases j <;>
    simp_all [weightedScore, fingerTermScore, fget, weightsList, List.range_succ] <;>
    norm_num

lemma rawConfidence_lt_rawConfidence {ws1 ws2 : ℚ} (h1 : 0 < ws1) (hlt : ws1 < ws2)
    (h2 : ws2 ≤ totalWeight) : rawConfidence ws1 < rawConfidence ws2 := by
  rw [totalWeight_eq_five] at h2
  unfold rawConfidence
  rw [totalWeight_eq_five]
  rw [if_neg (not_le.mpr h1), if_neg (not_le.mpr (h1.trans hlt))]
  rw [min_eq_right (by linarith : ws1 / 5 ≤ 1), min_eq_right (by linarith : ws2 / 5 ≤ 1)]
  linarith

lemma scoreConfidence_lt_scoreConfidence (g : Gesture) (p f1 f2 : List Bool)
    (h : rawConfidence (weightedScore p f1) < rawConfidence (weightedScore p f2)) :
    scoreConfidence g p f1 < scoreConfidence g p f2 := by
  have step1 : typeAdjust g (rawConfidence (weightedScore p f1)) <
      typeAdjust g (rawConfidence (weightedScore p f2)) := by
    unfold typeAdjust
    split
    · exact mul_lt_mul_of_pos_right h (by norm_num)
    · exact h
  unfold scoreConfidence motionAdjust
  split
  · exact mul_lt_mul_of_pos_right step1 (by norm_num)
  · exact step1

/-- Counterexample to C3.  For the pattern of `gestureArch`
(`[false,false,false,true,false]`, no verification function), the vector
missing the expected-extended ring finger scores `0.648`, strictly more
than the `0.532` of the vector with an unexpected extra index finger —
because the ring weight (0.8) is small and the index weight (1.3) large,
the 1.2-fold missing penalty `1.2·0.8 = 0.96` is smaller than the 0.8-fold
extra penalty `0.8·1.3 = 1.04`. -/
theorem asymmetric_penalty_counterexample :
    gestureConfidence gestureArch (patternFor gestureArch)
        [false, false, false, false, false] >
      gestureConfidence gestureArch (patternFor gestureArch)
        [false, true, false, true, false] := by
  rw [show patternFor gestureArch = ⟨[false, false, false, true, false], none⟩ from rfl]
  norm_num [gestureConfidence, gestureArch, scoreConfidence, weightedScore,
    fingerTermScore, fget, weightsList, totalWeight, rawConfidence, typeAdjust,
    motionAdjust, List.range_succ]
  rw [if_neg (by decide : ¬ (GestureType.word = GestureType.phrase)),
    if_neg (by decide : ¬ (GestureType.word = GestureType.phrase))]
  norm_num

/-- C3, amended.  For a gesture without a verification function whose
pattern has five entries, flip one expected-extended position `i` off
(missing finger) and, separately, one expected-closed position `j` on
(extra finger).  The missing-finger vector scores strictly lower than the
extra-finger vector exactly on the side `9·wⱼ < 11·wᵢ` of the weights —
in particular whenever the two positions carry equal weights.  (When
`9·wⱼ ≥ 11·wᵢ`, e.g. missing the ring finger versus an extra index finger,
the order reverses, which is the counterexample to the unrestricted
claim.) -/
theorem asymmetric_penalty_amended (g : Gesture) (i j : Nat)
    (hv : (patternFor g).verifyFn = none)
    (h5 : (patternFor g).fingerPattern.length = 5)
    (hi : i < 5) (hj : j < 5)
    (hpi : (patternFor g).fingerPattern.getD i false = true)
    (hpj : (patternFor g).fingerPattern.getD j false = false)
    (hw : 9 * weightsList.getD j 0 < 11 * weightsList.getD i 0) :
    gestureConfidence g (patternFor g) ((patternFor g).fingerPattern.set i false) <
      gestureConfidence g (patternFor g) ((patternFor g).fingerPattern.set j true) := by
  have hgc : ∀ v, gestureConfidence g (patternFor g) v =
      scoreConfidence g (patternFor g).fingerPattern v := by
    intro v
    unfold gestureConfidence
    rw [hv]
  rw [hgc, hgc]
  apply scoreConfidence_lt_scoreConfidence
  rw [weightedScore_missing _ h5 i hi hpi, weightedScore_extra _ h5 j hj hpj]
  have hwi : weightsList.getD i 0 ≤ 13/10 := by
    interval_cases i <;> norm_num [weightsList]
  have hwj : 0 < weightsList.getD j 0 := by
    interval_cases j <;> norm_num [weightsList]
  refine rawConfidence_lt_rawConfidence (by linarith) (by linarith) ?_
  rw [totalWeight_eq_five]
  linarith

/-- Witness for amended C3 at the pattern of `gestureArch`: missing the
ring finger (weight 0.8) scores strictly below an extra pinky finger
(weight 0.9), since `9·0.9 = 8.1 < 8.8 = 11·0.8`. -/
theorem asymmetric_penalty_amended_witness :
    gestureConfidence gestureArch (patternFor gestureArch)
        [false, false, false, false, false] <
      gestureConfidence gestureArch (patternFor gestureArch)
        [false, false, false, true, true] := by
  have := asymmetric_penalty_amended gestureArch 3 4 rfl rfl
    (by norm_num) (by norm_num) rfl rfl (by norm_num [weightsList])
  rw [show (patternFor gestureArch).fingerPattern = [false, false, false, true, false]
    from rfl] at this
  simpa using this

lemma mem_insertByConf {x y : Gesture × ℚ} {l : List (Gesture × ℚ)} :
    y ∈ insertByConf x l ↔ y = x ∨ y ∈ l := by
  induction l with
  | nil => simp [insertByConf]
  | cons z t ih =>
    unfold insertByConf
    split
    · simp
    · simp [ih]
      tauto

lemma mem_sortByConfDesc {y : Gesture × ℚ} {l : List (Gesture × ℚ)} :
    y ∈ sortByConfDesc l ↔ y ∈ l := by
  induction l with
  | nil => simp [sortByConfDesc]
  | cons x t ih =>
    simp only [sortByConfDesc, List.foldr_cons]
    rw [show List.foldr insertByConf [] t = sortByConfDesc t from rfl] at *
    rw [mem_insertByConf, ih]
    simp

lemma sorted_insertByConf (x : Gesture × ℚ) (l : List (Gesture × ℚ))
    (h : List.Sorted (fun a b : Gesture × ℚ => b.2 ≤ a.2) l) :
    List.Sorted (fun a b : Gesture × ℚ => b.2 ≤ a.2) (insertByConf x l) := by
  induction l with
  | nil => simp [insertByConf]
  | cons z t ih =>
    rw [List.sorted_cons] at h
    unfold insertByConf
    split
    · rename_i hzx
      rw [List.sorted_cons]
      refine ⟨?_, List.sorted_cons.mpr h⟩
      intro b hb
      rcases List.mem_cons.mp hb with hb | hb
      · exact hb ▸ le_of_lt hzx
      · exact le_trans (h.1 b hb) (le_of_lt hzx)
    · rename_i hzx
      rw [List.sorted_cons]
      refine ⟨?_, ih h.2⟩
      intro b hb
      rcases mem_insertByConf.mp hb with hb | hb
      · exact hb ▸ not_lt.mp hzx
      · exact h.1 b hb

lemma sorted_sortByConfDesc (l : List (Gesture × ℚ)) :
    List.Sorted (fun a b : Gesture × ℚ => b.2 ≤ a.2) (sortByConfDesc l) := by
  induction l with
  | nil => simp [sortByConfDesc]
  | cons x t ih =>
    simpa [sortByConfDesc] using sorted_insertByConf x _ ih

lemma rawConfidence_pos (ws : ℚ) : 0 < rawConfidence ws := by
  unfold rawConfidence
  rw [totalWeight_eq_five]
  split
  · norm_num
  · rename_i hws
    exact lt_min (by norm_num) (div_pos (not_le.mp hws) (by norm_num))

lemma rawConfidence_le_one (ws : ℚ) : rawConfidence ws ≤ 1 := by
  unfold rawConfidence
  split
  · norm_num
  · exact min_le_left 1 _

lemma scoreConfidence_pos (g : Gesture) (p f : List Bool) : 0 < scoreConfidence g p f := by
  have h := rawConfidence_pos (weightedScore p f)
  unfold scoreConfidence typeAdjust motionAdjust
  split <;> split <;> nlinarith [h]

lemma scoreConfidence_le_one (g : Gesture) (p f : List Bool) : scoreConfidence g p f ≤ 1 := by
  unfold scoreConfidence typeAdjust motionAdjust
  have h1 := rawConfidence_pos (weightedScore p f)
  have h2 := rawConfidence_le_one (weightedScore p f)
  split <;> split <;> nlinarith

lemma gestureConfidence_pos (g : Gesture) (pinfo : PatternInfo) (f : List Bool) :
    0 < gestureConfidence g pinfo f := by
  unfold gestureConfidence
  rcases pinfo.verifyFn with _ | vf
  · exact scoreConfidence_pos g _ f
  · dsimp only
    split
    · exact scoreConfidence_pos g _ f
    · norm_num

lemma gestureConfidence_le_one (g : Gesture) (pinfo : PatternInfo) (f : List Bool) :
    gestureConfidence g pinfo f ≤ 1 := by
  unfold gestureConfidence
  rcases pinfo.verifyFn with _ | vf
  · exact scoreConfidence_le_one g _ f
  · dsimp only
    split
    · exact scoreConfidence_le_one g _ f
    · norm_num

/-- C5.  The matcher returns a list ranked by descending confidence; every
returned confidence lies in `[0, 1]` and strictly exceeds the adaptive
minimum of its gesture; and the minimum applied to an alphabet gesture is
strictly greater than the minimum applied to a phrase gesture with the same
complexity field. -/
theorem matcher_ranked_descending_with_type_floors (fingers : List Bool)
    (gs : List Gesture) :
    List.Sorted (fun a b : Gesture × ℚ => b.2 ≤ a.2) (getFingerprintMatches fingers gs) ∧
    (∀ r ∈ getFingerprintMatches fingers gs, 0 ≤ r.2 ∧ r.2 ≤ 1 ∧ minConfidence r.1 < r.2) ∧
    (∀ g₁ g₂ : Gesture, g₁.type = GestureType.alphabet → g₂.type = GestureType.phrase →
      g₁.complexity = g₂.complexity → minConfidence g₂ < minConfidence g₁) := by
  refine ⟨sorted_sortByConfDesc _, ?_, ?_⟩
  · intro r hr
    have hr' := mem_sortByConfDesc.mp hr
    have hmem := List.mem_filter.mp hr'
    have hfloor : minConfidence r.1 < r.2 := by
      simpa using of_decide_eq_true hmem.2
    obtain ⟨g, _, hge⟩ := List.mem_map.mp hmem.1
    have h2 : r.2 = gestureConfidence g (patternFor g) fingers := by
      rw [← hge]
    refine ⟨?_, ?_, hfloor⟩
    · rw [h2]
      exact le_of_lt (gestureConfidence_pos g _ fingers)
    · rw [h2]
      exact gestureConfidence_le_one g _ fingers
  · intro g₁ g₂ h₁ h₂ hc
    unfold minConfidence
    rw [h₁, h₂, hc]
    rcases g₂.complexity with _ | c <;> norm_num

/-- Witness for C5 at a concrete matcher call and a concrete
alphabet/phrase pair with equal (absent) complexity. -/
theorem matcher_ranked_descending_with_type_floors_witness :
    (List.Sorted (fun a b : Gesture × ℚ => b.2 ≤ a.2)
      (getFingerprintMatches [false, false, false, false, false] [gestureS, gestureArch]) ∧
    (∀ r ∈ getFingerprintMatches [false, false, false, false, false] [gestureS, gestureArch],
      0 ≤ r.2 ∧ r.2 ≤ 1 ∧ minConfidence r.1 < r.2)) ∧
    minConfidence gestureHello < minConfidence gestureS := by
  have h := matcher_ranked_descending_with_type_floors
    [false, false, false, false, false] [gestureS, gestureArch]
  exact ⟨⟨h.1, h.2.1⟩, h.2.2 gestureS gestureHello rfl rfl rfl⟩

/-- C10.  When the top-ranked candidate carried into `recognizeGesture`'s
special cases is named `'1'`–`'5'`, special cases 1–3 leave it untouched
(their name guards all fail), and special case 4 compares the number of
extended fingers of the Finger-State Vector with the numeral: on a match
the confidence becomes `max c 0.9` (so at least 0.9), otherwise it is
multiplied by 0.3. -/
theorem numeral_sign_count_adjustment (lm : List Pt) (gs : List Gesture)
    (fingers : List Bool) (tib hh : ℝ) (imcp : Pt) (m : Gesture) (c : ℚ)
    (hname : m.name ∈ (["1", "2", "3", "4", "5"] : List String)) :
    applyCase1 lm gs fingers tib imcp (m, c) = some (m, c) ∧
    applyCase2 lm gs fingers hh (m, c) = some (m, c) ∧
    applyCase3 lm fingers (m, c) = some (m, c) ∧
    applyCase4 fingers (m, c) =
      (m, if (fingers.filter id).length = numeralValue m.name then max c (9/10)
        else c * (3/10)) ∧
    (9/10 : ℚ) ≤ max c (9/10) := by
  have hmem : m.name = "1" ∨ m.name = "2" ∨ m.name = "3" ∨ m.name = "4" ∨
      m.name = "5" := by simpa using hname
  have hc1 : applyCase1 lm gs fingers tib imcp (m, c) = some (m, c) := by
    unfold applyCase1
    rw [if_neg]
    · rfl
    · intro hcond
      rcases hmem with h | h | h | h | h <;> rw [h] at hcond <;>
        exact absurd hcond.1 (by decide)
  have hc2 : applyCase2 lm gs fingers hh (m, c) = some (m, c) := by
    unfold applyCase2
    rw [if_neg]
    · rfl
    · intro hcond
      rcases hmem with h | h | h | h | h <;> rw [h] at hcond <;>
        exact absurd hcond.1 (by decide)
  have hc3 : applyCase3 lm fingers (m, c) = some (m, c) := by
    unfold applyCase3
    rw [if_neg]
    · rfl
    · intro hcond
      rcases hmem with h | h | h | h | h <;> rw [h] at hcond <;>
        exact absurd hcond.1 (by decide)
  have hc4 : applyCase4 fingers (m, c) =
      (m, if (fingers.filter id).length = numeralValue m.name then max c (9/10)
        else c * (3/10)) := by
    unfold applyCase4
    rw [if_pos hname]
    split <;> simp_all
  exact ⟨hc1, hc2, hc3, hc4, le_max_right c (9/10)⟩

/-- Witness for C10 at the numeral `'3'`: three extended fingers confirm the
sign (confidence `max 0.5 0.9 = 0.9`), two extended fingers demote it. -/
theorem numeral_sign_count_adjustment_witness :
    applyCase4 [true, true, true, false, false] (gestureThree, 1/2) =
      (gestureThree, max (1/2) (9/10)) ∧
    applyCase4 [true, true, false, false, false] (gestureThree, 1/2) =
      (gestureThree, (1/2) * (3/10)) ∧
    (9/10 : ℚ) ≤ max (1/2) (9/10) := by
  have h1 := numeral_sign_count_adjustment [] [] [true, true, true, false, false]
    0 0 ptZero gestureThree (1/2) (by decide)
  have h2 := numeral_sign_count_adjustment [] [] [true, true, false, false, false]
    0 0 ptZero gestureThree (1/2) (by decide)
  refine ⟨?_, ?_, h1.2.2.2.2⟩
  · rw [h1.2.2.2.1, if_pos (by decide)]
  · rw [h2.2.2.2.1, if_neg (by decide)]

lemma extractFeatures_eq_none_of_short (lm : List Pt) (h : lm.length < 21) :
    extractFeatures lm = none := by
  have h20 : lm[20]? = none := List.getElem?_eq_none (by omega)
  unfold extractFeatures
  rcases h0 : lm[0]? with _ | p0
  · rfl
  rcases h4 : lm[4]? with _ | p4
  · rfl
  rcases h8 : lm[8]? with _ | p8
  · rfl
  rcases h12 : lm[12]? with _ | p12
  · rfl
  rcases h16 : lm[16]? with _ | p16
  · rfl
  rw [h20]
  rfl

lemma detectExtendedFingers_eq_none_of_short (lm : List Pt) (h : lm.length < 21) :
    detectExtendedFingers lm = none := by
  have h20 : lm[20]? = none := List.getElem?_eq_none (by omega)
  unfold detectExtendedFingers
  rcases h0 : lm[0]? with _ | p0
  · rfl
  rcases h4 : lm[4]? with _ | p4
  · rfl
  rcases h8 : lm[8]? with _ | p8
  · rfl
  rcases h12 : lm[12]? with _ | p12
  · rfl
  rcases h16 : lm[16]? with _ | p16
  · rfl
  rw [h20]
  rfl

lemma recognizeCore_eq_none_of_short (lm : List Pt) (gs : List Gesture)
    (h : lm.length < 21) : recognizeCore lm gs = none := by
  unfold recognizeCore
  rw [extractFeatures_eq_none_of_short lm h]
  rfl

/-- C2, amended.  A malformed landmark frame with fewer than 21 points is
rejected: the Finger-State Extractor's landmark accesses fail (the source
throws before producing a vector) and `recognizeGesture` returns `null`.
(All-zero 21-point frames, and frames longer than 21 points, are NOT
rejected — see the counterexample.) -/
theorem extractor_rejects_short_frames (lm : List Pt) (gs : List Gesture)
    (h : lm.length < 21) :
    detectExtendedFingers lm = none ∧ recognizeGesture lm gs = none := by
  refine ⟨detectExtendedFingers_eq_none_of_short lm h, ?_⟩
  unfold recognizeGesture
  by_cases h0 : lm.length = 0
  · rw [if_pos h0]
  · rw [if_neg h0, recognizeCore_eq_none_of_short lm gs h]
    rfl

/-- Witness for amended C2 at a concrete malformed 3-point frame. -/
theorem extractor_rejects_short_frames_witness :
    shortFrame.length < 21 ∧ detectExtendedFingers shortFrame = none ∧
    recognizeGesture shortFrame [gestureS] = none := by
  have hlen : shortFrame.length < 21 := by simp [shortFrame]
  exact ⟨hlen, extractor_rejects_short_frames shortFrame [gestureS] hlen⟩

lemma distance_self_zero (p : Pt) : distance p p = 0 := by
  simp [distance]

lemma angle_degenerate (p : Pt) : angleBetweenThreePoints p p p = 90 := by
  unfold angleBetweenThreePoints
  simp only [sub_self, mul_zero, zero_mul, add_zero, zero_add]
  rw [Real.sqrt_zero, mul_zero, div_zero, Real.arccos_zero]
  field_simp
  ring

lemma fingerFlag_degenerate (extTh angTh : ℝ) (he : 0 ≤ extTh) (ha : 90 < angTh) :
    fingerFlag ptZero ptZero ptZero ptZero extTh angTh = false := by
  have h1 : distance ptZero ptZero = 0 := distance_self_zero ptZero
  have h2 : angleBetweenThreePoints ptZero ptZero ptZero = 90 := angle_degenerate ptZero
  unfold fingerFlag
  rw [h1, h2]
  apply decide_eq_false
  rintro (hlt | hlt)
  · rw [div_zero] at hlt
    linarith
  · linarith

lemma thumbFlag_degenerate :
    decide (distance ptZero ptZero * (6/10) < distance ptZero ptZero) = false := by
  rw [distance_self_zero]
  norm_num

lemma zeroFrame_getElem (i : Nat) (hi : i < 21) : zeroFrame[i]? = some ptZero := by
  interval_cases i <;> rfl

lemma detectExtendedFingers_zeroFrame :
    detectExtendedFingers zeroFrame = some [false, false, false, false, false] := by
  unfold detectExtendedFingers
  rw [zeroFrame_getElem 0 (by norm_num), zeroFrame_getElem 4 (by norm_num),
    zeroFrame_getElem 8 (by norm_num), zeroFrame_getElem 12 (by norm_num),
    zeroFrame_getElem 16 (by norm_num), zeroFrame_getElem 20 (by norm_num),
    zeroFrame_getElem 6 (by norm_num), zeroFrame_getElem 10 (by norm_num),
    zeroFrame_getElem 14 (by norm_num), zeroFrame_getElem 18 (by norm_num),
    zeroFrame_getElem 1 (by norm_num), zeroFrame_getElem 5 (by norm_num),
    zeroFrame_getElem 9 (by norm_num), zeroFrame_getElem 13 (by norm_num),
    zeroFrame_getElem 17 (by norm_num)]
  show some [decide (distance ptZero ptZero * (6/10) < distance ptZero ptZero),
    fingerFlag ptZero ptZero ptZero ptZero (14/10) 140,
    fingerFlag ptZero ptZero ptZero ptZero (15/10) 145,
    fingerFlag ptZero ptZero ptZero ptZero (17/10) 150,
    fingerFlag ptZero ptZero ptZero ptZero (15/10) 130] =
      some [false, false, false, false, false]
  rw [fingerFlag_degenerate (14/10) 140 (by norm_num) (by norm_num),
    fingerFlag_degenerate (15/10) 145 (by norm_num) (by norm_num),
    fingerFlag_degenerate (17/10) 150 (by norm_num) (by norm_num),
    fingerFlag_degenerate (15/10) 130 (by norm_num) (by norm_num),
    thumbFlag_degenerate]

/-- Counterexample to C2.  The all-zero landmark frame has exactly 21
points, yet the Finger-State Extractor does not reject it: every geometric
test degenerates to `false` (ratios `0/0` and the 90-degree arccos-of-zero
angle pass no threshold), so it returns the all-false Finger-State Vector
instead of reporting "no valid hand state". -/
theorem extractor_accepts_all_zero_frame :
    zeroFrame.length = 21 ∧
    detectExtendedFingers zeroFrame = some [false, false, false, false, false] :=
  ⟨by simp [zeroFrame], detectExtendedFingers_zeroFrame⟩

lemma applyCase1_skip (lm : List Pt) (gs : List Gesture) (fingers : List Bool)
    (tib : ℝ) (imcp : Pt) (mc : Gesture × ℚ)
    (h : ¬ (mc.1.name = "A" ∨ mc.1.name = "S")) :
    applyCase1 lm gs fingers tib imcp mc = some mc := by
  unfold applyCase1
  rw [if_neg (fun hc => h hc.1)]
  rfl

lemma applyCase2_skip (lm : List Pt) (gs : List Gesture) (fingers : List Bool)
    (hh : ℝ) (mc : Gesture × ℚ) (h : ¬ (mc.1.name = "U" ∨ mc.1.name = "V")) :
    applyCase2 lm gs fingers hh mc = some mc := by
  unfold applyCase2
  rw [if_neg (fun hc => h hc.1)]
  rfl

lemma applyCase3_skip (lm : List Pt) (fingers : List Bool) (mc : Gesture × ℚ)
    (h : ¬ (mc.1.name = "Hello")) : applyCase3 lm fingers mc = some mc := by
  unfold applyCase3
  rw [if_neg (fun hc => h hc.1)]
  rfl

lemma applyCase4_skip (fingers : List Bool) (mc : Gesture × ℚ)
    (h : mc.1.name ∉ (["1", "2", "3", "4", "5"] : List String)) :
    applyCase4 fingers mc = mc := by
  unfold applyCase4
  rw [if_neg h]

lemma getFingerprintMatches_highClass :
    getFingerprintMatches [false, false, false, false, false] [gestureHighClass] =
      [(gestureHighClass, 1)] := by
  simp [getFingerprintMatches, gestureConfidence, patternFor, patternTable,
    scoreConfidence, weightedScore, fingerTermScore, fget, weightsList, totalWeight,
    rawConfidence, typeAdjust, motionAdjust, gestureHighClass, List.range_succ,
    minConfidence, sortByConfDesc, insertByConf]
  norm_num [insertByConf]

lemma extractFeatures_zeroFrame_isSome : ∃ v, extractFeatures zeroFrame = some v := by
  unfold extractFeatures
  rw [zeroFrame_getElem 0 (by norm_num), zeroFrame_getElem 4 (by norm_num),
    zeroFrame_getElem 8 (by norm_num), zeroFrame_getElem 12 (by norm_num),
    zeroFrame_getElem 16 (by norm_num), zeroFrame_getElem 20 (by norm_num)]
  exact ⟨_, rfl⟩

lemma calculateFingerCurls_zeroFrame_isSome :
    ∃ v, calculateFingerCurls zeroFrame = some v := by
  unfold calculateFingerCurls
  rw [zeroFrame_getElem 5 (by norm_num), zeroFrame_getElem 6 (by norm_num),
    zeroFrame_getElem 8 (by norm_num), zeroFrame_getElem 9 (by norm_num),
    zeroFrame_getElem 10 (by norm_num), zeroFrame_getElem 12 (by norm_num),
    zeroFrame_getElem 13 (by norm_num), zeroFrame_getElem 14 (by norm_num),
    zeroFrame_getElem 16 (by norm_num), zeroFrame_getElem 17 (by norm_num),
    zeroFrame_getElem 18 (by norm_num), zeroFrame_getElem 20 (by norm_num),
    zeroFrame_getElem 1 (by norm_num), zeroFrame_getElem 2 (by norm_num),
    zeroFrame_getElem 4 (by norm_num)]
  exact ⟨_, rfl⟩

lemma zeroFrame_map_x_max : (zeroFrame.map Pt.x).max? = some 0 := by
  simp [zeroFrame, ptZero, List.map_replicate, List.max?]

lemma zeroFrame_map_x_min : (zeroFrame.map Pt.x).min? = some 0 := by
  simp [zeroFrame, ptZero, List.map_replicate, List.min?]

lemma zeroFrame_map_y_max : (zeroFrame.map Pt.y).max? = some 0 := by
  simp [zeroFrame, ptZero, List.map_replicate, List.max?]

lemma zeroFrame_map_y_min : (zeroFrame.map Pt.y).min? = some 0 := by
  simp [zeroFrame, ptZero, List.map_replicate, List.min?]

lemma applyCases_highClass (lm : List Pt) (tib hh : ℝ) (imcp : Pt) :
    applyCases lm [gestureHighClass] [false, false, false, false, false] tib hh imcp
      (gestureHighClass, 1) = some (some ⟨gestureHighClass, 0⟩) := by
  unfold applyCases
  rw [applyCase1_skip _ _ _ _ _ _ (by decide)]
  simp only [Option.bind_eq_bind, Option.some_bind]
  rw [applyCase2_skip _ _ _ _ _ (by decide)]
  simp only [Option.bind_eq_bind, Option.some_bind]
  rw [applyCase3_skip _ _ _ (by decide)]
  simp only [Option.bind_eq_bind, Option.some_bind]
  rw [applyCase4_skip _ _ (by decide)]
  have hadj : msaslAdjust gestureHighClass 1 = 0 := by
    norm_num [msaslAdjust, gestureHighClass]
  have hthr : confThreshold gestureHighClass < 0 := by
    norm_num [confThreshold, gestureHighClass]
  dsimp only
  rw [hadj, if_pos hthr]
  rfl

lemma recognizeGesture_zeroFrame_highClass :
    recognizeGesture zeroFrame [gestureHighClass] = some ⟨gestureHighClass, 0⟩ := by
  obtain ⟨feats, hfeats⟩ := extractFeatures_zeroFrame_isSome
  obtain ⟨curls, hcurls⟩ := calculateFingerCurls_zeroFrame_isSome
  unfold recognizeGesture
  rw [if_neg (by simp [zeroFrame])]
  unfold recognizeCore
  rw [hfeats, zeroFrame_getElem 0 (by norm_num), zeroFrame_getElem 9 (by norm_num),
    detectExtendedFingers_zeroFrame, zeroFrame_map_x_max, zeroFrame_map_x_min,
    zeroFrame_map_y_max, zeroFrame_map_y_min, zeroFrame_getElem 4 (by norm_num),
    zeroFrame_getElem 5 (by norm_num), hcurls]
  simp only [Option.bind_eq_bind, Option.some_bind]
  unfold matchPhase
  rw [getFingerprintMatches_highClass]
  rw [show (match [(gestureHighClass, (1 : ℚ))] with
    | [] => (pure none : Option (Option RecognitionResult))
    | top :: _ => applyCases zeroFrame [gestureHighClass] [false, false, false, false, false]
        (distance ptZero ptZero) (0 - 0) ptZero top) =
    applyCases zeroFrame [gestureHighClass] [false, false, false, false, false]
      (distance ptZero ptZero) (0 - 0) ptZero (gestureHighClass, 1) from rfl]
  rw [applyCases_highClass]
  rfl

/-- Counterexample to C9.  `gestureHighClass` has `msaslClass = 100`, so its
confidence is driven to exactly 0 — yet `recognizeGesture` returns it on
the all-zero frame, because its complexity (96) drives the applied
threshold to `0.95 - 0.96 = -0.01`, which a zero confidence exceeds. -/
theorem msasl_class_100_returned_counterexample :
    gestureHighClass.msaslClass = some 100 ∧
    recognizeGesture zeroFrame [gestureHighClass] = some ⟨gestureHighClass, 0⟩ :=
  ⟨rfl, recognizeGesture_zeroFrame_highClass⟩

lemma matches_conf_pos (fingers : List Bool) (gs : List Gesture) :
    ∀ r ∈ getFingerprintMatches fingers gs, 0 < r.2 := by
  intro r hr
  obtain ⟨g, _, hge⟩ := List.mem_map.mp (List.mem_filter.mp (mem_sortByConfDesc.mp hr)).1
  have h2 : r.2 = gestureConfidence g (patternFor g) fingers := by rw [← hge]
  rw [h2]
  exact gestureConfidence_pos g _ fingers

lemma applyCase1_pos {lm : List Pt} {gs : List Gesture} {fingers : List Bool}
    {tib : ℝ} {imcp : Pt} {mc mc' : Gesture × ℚ}
    (h : applyCase1 lm gs fingers tib imcp mc = some mc') (hp : 0 < mc.2) : 0 < mc'.2 := by
  unfold applyCase1 at h
  split at h
  · simp only [Option.bind_eq_bind, Option.bind_eq_some] at h
    obtain ⟨p1, _, h⟩ := h
    split at h
    · have hx : mc' = ((gs.find? (fun g => g.name == "A")).getD mc.1, max mc.2 (85/100)) := by
        simpa using h.symm
      rw [hx]
      exact lt_of_lt_of_le (by norm_num) (le_max_right _ _)
    · have hx : mc' = mc := by simpa using h.symm
      rw [hx]
      exact hp
  · have hx : mc' = mc := by simpa using h.symm
    rw [hx]
    exact hp

lemma applyCase2_pos {lm : List Pt} {gs : List Gesture} {fingers : List Bool}
    {hh : ℝ} {mc mc' : Gesture × ℚ}
    (h : applyCase2 lm gs fingers hh mc = some mc') (hp : 0 < mc.2) : 0 < mc'.2 := by
  unfold applyCase2 at h
  split at h
  · simp only [Option.bind_eq_bind, Option.bind_eq_some] at h
    obtain ⟨p1, _, p2, _, h⟩ := h
    split at h
    · have hx : mc' = ((gs.find? (fun g => g.name == "V")).getD mc.1, 9/10) := by
        simpa using h.symm
      rw [hx]
      norm_num
    · have hx : mc' = ((gs.find? (fun g => g.name == "U")).getD mc.1, 9/10) := by
        simpa using h.symm
      rw [hx]
      norm_num
  · have hx : mc' = mc := by simpa using h.symm
    rw [hx]
    exact hp

lemma applyCase3_pos {lm : List Pt} {fingers : List Bool} {mc mc' : Gesture × ℚ}
    (h : applyCase3 lm fingers mc = some mc') (hp : 0 < mc.2) : 0 < mc'.2 := by
  unfold applyCase3 at h
  split at h
  · simp only [Option.bind_eq_bind, Option.bind_eq_some] at h
    obtain ⟨pn, _, h⟩ := h
    split at h
    · have hx : mc' = (mc.1, 95/100) := by simpa using h.symm
      rw [hx]
      norm_num
    · have hx : mc' = (mc.1, mc.2 * (1/2)) := by simpa using h.symm
      rw [hx]
      exact mul_pos hp (by norm_num)
  · have hx : mc' = mc := by simpa using h.symm
    rw [hx]
    exact hp

lemma applyCase4_pos (fingers : List Bool) (mc : Gesture × ℚ) (hp : 0 < mc.2) :
    0 < (applyCase4 fingers mc).2 := by
  unfold applyCase4
  split
  · split
    · exact lt_of_lt_of_le (by norm_num) (le_max_right _ _)
    · exact mul_pos hp (by norm_num)
  · exact hp

lemma confThreshold_pos (g : Gesture) (hc : ∀ c, g.complexity = some c → c < 85) :
    0 < confThreshold g := by
  unfold confThreshold
  rcases hcc : g.complexity with _ | c
  · rcases htype : g.type <;> norm_num
  · have hlt := hc c hcc
    rcases htype : g.type <;> dsimp only <;> linarith

lemma applyCases_msasl_block {lm : List Pt} {gs : List Gesture} {fingers : List Bool}
    {tib hh : ℝ} {imcp : Pt} {top : Gesture × ℚ} {r : RecognitionResult}
    (htop : 0 < top.2)
    (h : applyCases lm gs fingers tib hh imcp top = some (some r))
    (m : ℚ) (hm : r.gesture.msaslClass = some m) (h100 : 100 ≤ m)
    (hcomp : ∀ c, r.gesture.complexity = some c → c < 85) : False := by
  unfold applyCases at h
  simp only [Option.bind_eq_bind, Option.bind_eq_some] at h
  obtain ⟨mc1, h1, mc2, h2, mc3, h3, h⟩ := h
  have p1 := applyCase1_pos h1 htop
  have p2 := applyCase2_pos h2 p1
  have p3 := applyCase3_pos h3 p2
  have p4 := applyCase4_pos fingers mc3 p3
  set mc4 := applyCase4 fingers mc3 with hmc4
  have h' : (if confThreshold mc4.1 < msaslAdjust mc4.1 mc4.2 then
      (some ⟨mc4.1, msaslAdjust mc4.1 mc4.2⟩ : Option RecognitionResult) else none) =
      some r := by
    simpa using h
  split at h'
  · rename_i hlt
    have hr : r = ⟨mc4.1, msaslAdjust mc4.1 mc4.2⟩ := by simpa using h'.symm
    have hg : r.gesture = mc4.1 := by rw [hr]
    have hmm : mc4.1.msaslClass = some m := by rw [← hg]; exact hm
    have hadj : msaslAdjust mc4.1 mc4.2 ≤ 0 := by
      unfold msaslAdjust
      rw [hmm]
      have hfac : 1 - m / 100 ≤ 0 := by linarith
      exact mul_nonpos_of_nonneg_of_nonpos (le_of_lt p4) hfac
    have hthr : 0 < confThreshold mc4.1 :=
      confThreshold_pos mc4.1 (fun c hcc => hcomp c (by rw [hg]; exact hcc))
    linarith
  · exact absurd h' (by simp)

/-- C9, amended.  A candidate gesture whose `msaslClass` is at least 100 has
its confidence driven to zero or below by the complexity adjustment
`confidence *= 1 - msaslClass/100`; provided the gesture's `complexity`
field (if defined) is below 85 — so that the applied per-type threshold
(0.88, 0.85 or 0.95, each minus `complexity * 0.01`) remains positive —
`recognizeGesture` never returns that gesture.  (When the complexity drags
the threshold to zero or below, a zero confidence passes it and the
gesture IS returned: see the counterexample.) -/
theorem msasl_class_100_never_returned (lm : List Pt) (gs : List Gesture) (g : Gesture)
    (m : ℚ) (hm : g.msaslClass = some m) (h100 : 100 ≤ m)
    (hcomp : ∀ c, g.complexity = some c → c < 85) :
    ∀ r, recognizeGesture lm gs = some r → r.gesture ≠ g := by
  intro r hres hrg
  unfold recognizeGesture at hres
  split at hres
  · exact absurd hres (by simp)
  rw [Option.join_eq_some] at hres
  unfold recognizeCore at hres
  simp only [Option.bind_eq_bind, Option.bind_eq_some] at hres
  obtain ⟨feats, _, w, _, mm, _, fingers, _, mx, _, mn, _, my, _, myn, _, tt, _, im, _,
    cur, _, hres⟩ := hres
  unfold matchPhase at hres
  rcases hmt : getFingerprintMatches fingers gs with _ | ⟨top, rest⟩
  · rw [hmt] at hres
    simp at hres
  · rw [hmt] at hres
    have htop : 0 < top.2 :=
      matches_conf_pos fingers gs top (hmt ▸ List.mem_cons_self top rest)
    have hm' : r.gesture.msaslClass = some m := by rw [hrg]; exact hm
    have hcomp' : ∀ c, r.gesture.complexity = some c → c < 85 := by
      intro c hcc
      exact hcomp c (by rw [← hrg]; exact hcc)
    exact applyCases_msasl_block htop hres m hm' h100 hcomp'

/-- Witness for amended C9: a gesture with `msaslClass = 100` and small
complexity cannot be the result of the concrete all-zero-frame run, whose
result is `gestureHighClass`. -/
theorem msasl_class_100_never_returned_witness :
    gestureMystery.msaslClass = none ∧
    (⟨"Blocked", GestureType.word, none, false, some 10, some 100⟩ : Gesture).msaslClass
      = some 100 ∧
    (⟨gestureHighClass, 0⟩ : RecognitionResult).gesture ≠
      ⟨"Blocked", GestureType.word, none, false, some 10, some 100⟩ := by
  refine ⟨rfl, rfl, ?_⟩
  exact msasl_class_100_never_returned zeroFrame [gestureHighClass]
    ⟨"Blocked", GestureType.word, none, false, some 10, some 100⟩ 100 rfl (by norm_num)
    (by intro c hc; norm_num at hc; rw [← hc]; norm_num)
    ⟨gestureHighClass, 0⟩ recognizeGesture_zeroFrame_highClass

end SignFlow
